import Mathlib

/-!
Verification development for the bdagger-final-simulations repository.

Part 1 embeds the taper-profile generator of
final_geometry/extract_and_plot_final_geometry.py: the unit-aware scalar
parser (str_to_float_maybe_unit), parameter resolution with alias lists
(get_any inside compute_profile), and the taper formula
  vN_target - (vN_target - v0) * 2.0 ** (-(n_abs / delx) ** M).
Parameter strings are decimal literals; their parsed values are modelled
exactly as signed decimals (mantissa over a power of ten), and the taper
arithmetic itself is carried out over the reals, with ** on a float
exponent modelled by Real.rpow.

Part 2 embeds the variant synchronizer of
omc_unit_cell_final/mech_unit_cell/mech_symzsymy/sync_unit_cell_params.py:
planned_params_for, detect_param_mismatches, and the per-variant
orchestration loop of main (modelled as a trace of external engine calls,
with a raised exception modelled by an abort flag).
-/

instance {ε α : Type _} [DecidableEq ε] [DecidableEq α] : DecidableEq (Except ε α) := fun
  | .ok a, .ok b => if h : a = b then .isTrue (by rw [h]) else .isFalse (by simp [h])
  | .ok _, .error _ => .isFalse (by simp)
  | .error _, .ok _ => .isFalse (by simp)
  | .error a, .error b => if h : a = b then .isTrue (by rw [h]) else .isFalse (by simp [h])

/-- Exact value of a parsed decimal literal: mant / 10 ^ fracLen. -/
structure Dec where
  mant : ℤ
  fracLen : ℕ
deriving DecidableEq, Repr

/-- The real number denoted by a parsed decimal literal. -/
noncomputable def decToReal (x : Dec) : ℝ := (x.mant : ℝ) / (10 : ℝ) ^ x.fracLen

/-- Numeric value of a decimal digit character. -/
def charDigit (c : Char) : ℕ := c.toNat - 48

/-- Value of a digit string, most significant first. -/
def digitsToNat (cs : List Char) : ℕ := cs.foldl (fun a c => 10 * a + charDigit c) 0

/-- Strip of leading and trailing whitespace from a character list,
by structural recursion. -/
def stripChars (cs : List Char) : List Char :=
  ((cs.dropWhile Char.isWhitespace).reverse.dropWhile Char.isWhitespace).reverse

/-- Model of the Python str.strip() method. -/
def pyStrip (s : String) : String := String.mk (stripChars s.data)

/-- Magnitude part of a Python float literal restricted to plain decimal
notation: digits, an optional decimal point, optional fraction digits
(covers every literal occurring in this repository; scientific notation,
inf/nan and underscores are not needed and yield none). -/
def pyFloatMag (body : List Char) : Option Dec :=
  let ip := body.takeWhile (fun c => c != '.')
  let rest := body.dropWhile (fun c => c != '.')
  if ip.all Char.isDigit then
    match rest with
    | [] => if ip.isEmpty then none else some ⟨(digitsToNat ip : ℤ), 0⟩
    | _ :: fp =>
      if fp.all Char.isDigit && !(ip.isEmpty && fp.isEmpty) then
        some ⟨(digitsToNat ip * 10 ^ fp.length + digitsToNat fp : ℤ), fp.length⟩
      else none
  else none

/-- Model of the Python float(...) conversion on plain decimal literals,
with an optional leading sign. -/
def pyFloat (s : String) : Option Dec :=
  match s.data with
  | '-' :: r => (pyFloatMag r).map (fun x => ⟨-x.mant, x.fracLen⟩)
  | '+' :: r => pyFloatMag r
  | r => pyFloatMag r

/-- Embeds str_to_float_maybe_unit: strip the string, truncate at the first
opening square bracket if present, strip again, convert to float. -/
def str_to_float_maybe_unit (s : String) : Option Dec :=
  let t := pyStrip s
  let t := if t.data.contains '[' then pyStrip (String.mk (t.data.takeWhile (fun c => c != '['))) else t
  pyFloat t

/-- Model of the Python round(...) builtin on a float value mant / 10 ^ k:
round to nearest, ties to even (banker's rounding). -/
def pyRound (x : Dec) : ℤ :=
  let d : ℤ := (10 : ℤ) ^ x.fracLen
  let f : ℤ := Int.ediv x.mant d
  let r : ℤ := x.mant - d * f
  if 2 * r = d then (if f % 2 = 0 then f else f + 1)
  else if 2 * r < d then f else f + 1

/-- Errors raised during parameter resolution in compute_profile:
KeyError from get_any when no alias is present, ValueError from float()
when a present value does not parse. -/
inductive ProfErr where
  | missingParam : ProfErr
  | badNumber : ProfErr
deriving DecidableEq, Repr

/-- Embeds get_any inside compute_profile: walk the alias list, return the
parsed value of the first key present in params; a parse failure raises;
no key present raises KeyError. -/
def getAny (params : List (String × String)) : List String → Except ProfErr Dec
  | [] => .error .missingParam
  | k :: ks =>
    match params.lookup k with
    | some s =>
      match str_to_float_maybe_unit s with
      | some q => .ok q
      | none => .error .badNumber
    | none => getAny params ks

/-- Embeds the conditional side-specific lookups (lines 61-64 of
extract_and_plot_final_geometry.py): parse the value when the key is
present, otherwise None. -/
def optParse (params : List (String × String)) (k : String) : Except ProfErr (Option Dec) :=
  match params.lookup k with
  | some s =>
    match str_to_float_maybe_unit s with
    | some q => .ok (some q)
    | none => .error .badNumber
  | none => .ok none

/-- Embeds the generic-fallback blocks (lines 65-72): if either side is
missing, resolve the generic key and fill the missing side(s) with it. -/
def resolveSide (params : List (String × String)) (l r : Option Dec)
    (fallbackKeys : List String) : Except ProfErr (Dec × Dec) :=
  match l, r with
  | some lv, some rv => .ok (lv, rv)
  | _, _ =>
    match getAny params fallbackKeys with
    | .ok v => .ok (l.getD v, r.getD v)
    | .error e => .error e

/-- The numeric inputs of the taper loop after resolution: N as rounded,
center values, per-side boundary targets for d and h, decay length and
decay order. -/
structure Resolved where
  N : ℤ
  d0 : Dec
  h0 : Dec
  dNl : Dec
  dNr : Dec
  hNl : Dec
  hNr : Dec
  delx : Dec
  M : Dec
deriving DecidableEq, Repr

/-- Embeds the resolution phase of compute_profile (lines 56-75), in source
order: N (rounded), d0, h0, the four optional side-specific targets, the
d fallback, the h fallback, delx, M. -/
def resolveProfileParams (params : List (String × String)) : Except ProfErr Resolved :=
  match getAny params ["n_ext", "N", "n", "N_unitcell"] with
  | .error e => .error e
  | .ok nv =>
  match getAny params ["d0"] with
  | .error e => .error e
  | .ok d0 =>
  match getAny params ["h0"] with
  | .error e => .error e
  | .ok h0 =>
  match optParse params "d17_mir" with
  | .error e => .error e
  | .ok dNl0 =>
  match optParse params "d17_wg" with
  | .error e => .error e
  | .ok dNr0 =>
  match optParse params "h17_mir" with
  | .error e => .error e
  | .ok hNl0 =>
  match optParse params "h17_wg" with
  | .error e => .error e
  | .ok hNr0 =>
  match resolveSide params dNl0 dNr0 ["d17", "dN", "d_ext"] with
  | .error e => .error e
  | .ok dlr =>
  match resolveSide params hNl0 hNr0 ["h17", "hN", "h_ext"] with
  | .error e => .error e
  | .ok hlr =>
  match getAny params ["delx", "delta_x", "dx"] with
  | .error e => .error e
  | .ok delx =>
  match getAny params ["M", "m"] with
  | .error e => .error e
  | .ok M => .ok ⟨pyRound nv, d0, h0, dlr.1, dlr.2, hlr.1, hlr.2, delx, M⟩

/-- Embeds np.arange(-N, N + 1): the ascending integers from -N to N,
empty when N is negative. -/
def idxRange (N : ℤ) : List ℤ :=
  (List.range (2 * N + 1).toNat).map (fun i : ℕ => -N + (i : ℤ))

/-- Embeds the inner taper function (lines 78-79):
vN_target - (vN_target - v0) * 2.0 ** (-(n_abs / delx) ** M). -/
noncomputable def taperR (delx M v0 vT a : ℝ) : ℝ :=
  vT - (vT - v0) * (2 : ℝ) ^ (-((a / delx) ^ M))

/-- Embeds one entry of d_arr (line 81): d0 at index 0, otherwise the taper
toward the left target for negative index and the right target otherwise. -/
noncomputable def dVal (r : Resolved) (n : ℤ) : ℝ :=
  if n = 0 then decToReal r.d0
  else taperR (decToReal r.delx) (decToReal r.M) (decToReal r.d0)
    (if n < 0 then decToReal r.dNl else decToReal r.dNr) ((|n| : ℤ) : ℝ)

/-- Embeds one entry of h_arr (line 82). -/
noncomputable def hVal (r : Resolved) (n : ℤ) : ℝ :=
  if n = 0 then decToReal r.h0
  else taperR (decToReal r.delx) (decToReal r.M) (decToReal r.h0)
    (if n < 0 then decToReal r.hNl else decToReal r.hNr) ((|n| : ℤ) : ℝ)

/-- Embeds compute_profile: resolve all parameters, then build the
index/d/h table over np.arange(-N, N + 1). -/
noncomputable def compute_profile (params : List (String × String)) :
    Except ProfErr (List (ℤ × ℝ × ℝ)) :=
  (resolveProfileParams params).map
    (fun r => (idxRange r.N).map (fun n => (n, dVal r n, hVal r n)))

/-- True exactly when the computation returned normally (no exception). -/
def exceptOk {ε α : Type _} : Except ε α → Bool
  | .ok _ => true
  | .error _ => false

/-- Number of records in a returned profile (0 for an exception). -/
def profileLen : Except ProfErr (List (ℤ × ℝ × ℝ)) → ℕ
  | .ok l => l.length
  | .error _ => 0

/-- Modelled from the spec: the per-index quantity value as the
specification states it, with target = vRight for positive index and vLeft
for negative index, value target - (target - v0) * 2 ^ (-(|n| / delx) ^ M),
and exactly v0 at index 0. Used to compare the source formula against the
specification formula. -/
noncomputable def specValue (v0 vLeft vRight delx M : ℝ) (n : ℤ) : ℝ :=
  if n = 0 then v0
  else
    let target := if 0 < n then vRight else vLeft
    let a : ℝ := ((|n| : ℤ) : ℝ)
    target - (target - v0) * (2 : ℝ) ^ (-((a / delx) ^ M))

/-- The canonical end-to-end parameter set named by the specification. -/
def canonicalParams : List (String × String) :=
  [("n_ext", "2"), ("d0", "10"), ("h0", "4"), ("d17", "20"), ("h17", "8"),
   ("delx", "1"), ("M", "2")]

/-- Sanity check of the parser against the unit-suffixed example of the
specification. -/
lemma parse_unit_suffix_check : str_to_float_maybe_unit "1241[nm]" = some ⟨1241, 0⟩ ∧
    str_to_float_maybe_unit "3.5" = some ⟨35, 1⟩ ∧
    str_to_float_maybe_unit "abc" = none ∧
    str_to_float_maybe_unit " -3 " = some ⟨-3, 0⟩ := by decide

/-- Sanity check of banker's rounding on halves and ordinary values. -/
lemma pyRound_check : pyRound ⟨25, 1⟩ = 2 ∧ pyRound ⟨35, 1⟩ = 4 ∧
    pyRound ⟨-5, 1⟩ = 0 ∧ pyRound ⟨-27, 1⟩ = -3 := by decide

/-- Sanity check of the index range against np.arange. -/
lemma idxRange_check : idxRange 2 = [-2, -1, 0, 1, 2] ∧ idxRange (-3) = [] := by decide

/-- Model of the Python str.lower() method (ASCII, as in the kind tags). -/
def pyLower (s : String) : String := String.mk (s.data.map Char.toLower)

/-- Does the first character list start with the second one. -/
def startsWithChars : List Char → List Char → Bool
  | _, [] => true
  | [], _ :: _ => false
  | a :: as, b :: bs => (a = b) && startsWithChars as bs

/-- Does the first character list contain the second one as a contiguous run. -/
def containsChars : List Char → List Char → Bool
  | [], pat => pat.isEmpty
  | a :: rest, pat => startsWithChars (a :: rest) pat || containsChars rest pat

/-- Model of the Python membership test pat in s on strings. -/
def pyInStr (pat s : String) : Bool := containsChars s.data pat.data

/-- Python-dict assignment on an insertion-ordered association list with
unique keys: replace the value in place when the key exists, else append. -/
def dictSet : List (String × String) → String → String → List (String × String)
  | [], k, v => [(k, v)]
  | kv :: rest, k, v => if kv.1 = k then (k, v) :: rest else kv :: dictSet rest k v

/-- The conditional copy pattern of planned_params_for: when src is a key
of base, assign its value to the dst key of p, else leave p unchanged. -/
def setIfPresent (base p : List (String × String)) (src dst : String) :
    List (String × String) :=
  match base.lookup src with
  | some v => dictSet p dst v
  | none => p

/-- Embeds planned_params_for of sync_unit_cell_params.py (lines 16-46):
lower-case the kind, copy the base dict, then set n and map the
kind-specific d17/h17 values into the d17/h17 slots when present; an
unknown kind raises ValueError. -/
def planned_params_for (model_kind : String) (base : List (String × String)) :
    Except Unit (List (String × String)) :=
  let kind := pyLower model_kind
  if kind = "mirror" then
    .ok (setIfPresent base (setIfPresent base (dictSet base "n" "17") "d17_mir" "d17")
      "h17_mir" "h17")
  else if kind = "defect" || kind = "mirror_defect" || kind = "defectmirror" then
    .ok (dictSet base "n" "0")
  else if kind = "wg" || kind = "waveguide" || kind = "mirror_wg" || kind = "mirrorwg" then
    .ok (setIfPresent base (setIfPresent base (dictSet base "n" "17") "d17_wg" "d17")
      "h17_wg" "h17")
  else .error ()

/-- The current-value reader of detect_param_mismatches: none models a
model object without a usable parameter getter; a present getter returns
none for a name when the read raises or yields None. -/
def readCurrent (reader : Option (String → Option String)) (k : String) : Option String :=
  match reader with
  | none => none
  | some g => g k

/-- Embeds detect_param_mismatches (lines 49-81): for every planned entry
in insertion order, read the current value; record a mismatch when the
read gave nothing or when the stripped strings differ. -/
def detect_param_mismatches (reader : Option (String → Option String))
    (planned : List (String × String)) : List (String × (Option String × String)) :=
  planned.filterMap (fun kv =>
    match readCurrent reader kv.1 with
    | none => some (kv.1, (none, kv.2))
    | some c => if pyStrip c = pyStrip kv.2 then none else some (kv.1, (some c, kv.2)))

/-- The command-line flags of sync_unit_cell_params.py main that the
per-variant loop consults. -/
structure SyncConfig where
  study : String
  force : Bool
  dryRun : Bool
  saveSolved : Bool
  exportName : Option String

/-- The external COMSOL engine as the loop observes it, per model kind:
whether the model file exists, the per-model parameter reader, whether
build/mesh/solve/export/save raise, and the export definitions list. -/
structure Engine where
  modelExists : String → Bool
  reader : String → Option (String → Option String)
  buildOk : String → Bool
  meshOk : String → Bool
  solveOk : String → Bool
  exportsOf : String → List String
  exportOk : String → String → Bool
  saveOk : String → Bool

/-- One external engine call made by the loop, with the outcome the engine
gave where the source inspects or swallows it. -/
inductive ECall where
  | load (kind : String)
  | setParam (kind name value : String)
  | build (kind : String) (ok : Bool)
  | mesh (kind : String) (ok : Bool)
  | solve (kind study : String) (ok : Bool)
  | exportData (kind defName : String) (ok : Bool)
  | save (kind : String) (ok : Bool)
  | clear
deriving DecidableEq, Repr

/-- The preference filter for export names (line 177): any of the tokens
band, global, diag occurs in the lower-cased name. -/
def exportTok (e : String) : Bool :=
  pyInStr "band" (pyLower e) || pyInStr "global" (pyLower e) || pyInStr "diag" (pyLower e)

/-- Embeds the export-name choice (lines 175-179): an explicit CLI name
wins; otherwise the first preferred export if any, else the first export;
the empty option and the empty string are falsy and suppress the export. -/
def effectiveExportName (cfg : SyncConfig) (eng : Engine) (kind : String) : Option String :=
  let n0 := match cfg.exportName with
    | some s => some s
    | none =>
      match eng.exportsOf kind with
      | [] => none
      | e :: rest =>
        match (e :: rest).filter exportTok with
        | p :: _ => some p
        | [] => some e
  match n0 with
  | some s => if s = "" then none else some s
  | none => none

/-- Embeds one iteration of the per-variant loop of main (lines 137-200)
as the list of engine calls it makes plus an abort flag: true means an
uncaught exception left the loop (ValueError from planned_params_for, or
solve raising; build/mesh/export/save failures are swallowed). -/
def runVariant (eng : Engine) (cfg : SyncConfig) (base : List (String × String))
    (kind : String) : List ECall × Bool :=
  if eng.modelExists kind = false then ([], false)
  else
    match planned_params_for kind base with
    | .error _ => ([], true)
    | .ok planned =>
      let diffs := detect_param_mismatches (eng.reader kind) planned
      if cfg.dryRun then ([.load kind], false)
      else if diffs.isEmpty && !cfg.force then ([.load kind], false)
      else
        let pre := [ECall.load kind] ++ diffs.map (fun d => ECall.setParam kind d.1 d.2.2)
          ++ [ECall.build kind (eng.buildOk kind), ECall.mesh kind (eng.meshOk kind),
              ECall.solve kind cfg.study (eng.solveOk kind)]
        if eng.solveOk kind = false then (pre, true)
        else
          let ex := match effectiveExportName cfg eng kind with
            | some nm => [ECall.exportData kind nm (eng.exportOk kind nm)]
            | none => []
          let sv := if cfg.saveSolved then [ECall.save kind (eng.saveOk kind)] else []
          (pre ++ ex ++ sv ++ [ECall.clear], false)

/-- Embeds the whole loop over the selected kinds plus the final
client.clear() of the finally block: an aborting variant stops the loop
and the exception propagates out of main (abort flag true); otherwise the
next kind is processed. -/
def runSync (eng : Engine) (cfg : SyncConfig) (base : List (String × String)) :
    List String → List ECall × Bool
  | [] => ([ECall.clear], false)
  | k :: rest =>
    let step := runVariant eng cfg base k
    if step.2 then (step.1 ++ [ECall.clear], true)
    else
      let tail := runSync eng cfg base rest
      (step.1 ++ tail.1, tail.2)

/-- Sanity check of the string helpers against the Python methods. -/
lemma string_helpers_check : pyLower "Mirror_WG" = "mirror_wg" ∧
    pyInStr "band" "my_Band_export" = false ∧
    pyInStr "band" (pyLower "my_Band_export") = true ∧
    dictSet [("a", "1"), ("b", "2")] "a" "9" = [("a", "9"), ("b", "2")] ∧
    dictSet [("a", "1")] "n" "17" = [("a", "1"), ("n", "17")] := by decide

/-- Sanity check of the composer on the specification example base. -/
lemma planned_params_check :
    planned_params_for "mirror" [("d17_mir", "5[nm]"), ("h17_mir", "2[nm]"), ("n_ext", "17")] =
      .ok [("d17_mir", "5[nm]"), ("h17_mir", "2[nm]"), ("n_ext", "17"), ("n", "17"),
           ("d17", "5[nm]"), ("h17", "2[nm]")] ∧
    planned_params_for "defect" [("d17_mir", "5[nm]"), ("h17_mir", "2[nm]"), ("n_ext", "17")] =
      .ok [("d17_mir", "5[nm]"), ("h17_mir", "2[nm]"), ("n_ext", "17"), ("n", "0")] ∧
    planned_params_for "bogus" [] = .error () := by decide

/-! ### Helper lemmas about the profile embedding -/

lemma compute_profile_eq (params : List (String × String)) (r : Resolved)
    (h : resolveProfileParams params = .ok r) :
    compute_profile params = .ok ((idxRange r.N).map fun n => (n, dVal r n, hVal r n)) := by
  unfold compute_profile
  rw [h]
  rfl

lemma idxRange_length (N : ℤ) : (idxRange N).length = (2 * N + 1).toNat := by
  rw [idxRange, List.length_map, List.length_range]

lemma idxRange_get (N : ℤ) (k : ℕ) (hk : k < (idxRange N).length) :
    (idxRange N).get ⟨k, hk⟩ = -N + (k : ℤ) := by
  simp only [idxRange, List.get_eq_getElem, List.getElem_map, List.getElem_range]

lemma target_flip (n : ℤ) (L R : ℝ) (hn : n ≠ 0) :
    (if n < 0 then L else R) = (if 0 < n then R else L) := by
  rcases lt_trichotomy n 0 with h | h | h
  · simp [h, not_lt.mpr (le_of_lt h)]
  · exact absurd h hn
  · simp [h, not_lt.mpr (le_of_lt h)]

lemma dVal_eq_specValue (r : Resolved) (n : ℤ) :
    dVal r n = specValue (decToReal r.d0) (decToReal r.dNl) (decToReal r.dNr)
      (decToReal r.delx) (decToReal r.M) n := by
  unfold dVal specValue taperR
  by_cases hn : n = 0
  · simp [hn]
  · simp only [hn, if_false]
    rw [target_flip n _ _ hn]

lemma hVal_eq_specValue (r : Resolved) (n : ℤ) :
    hVal r n = specValue (decToReal r.h0) (decToReal r.hNl) (decToReal r.hNr)
      (decToReal r.delx) (decToReal r.M) n := by
  unfold hVal specValue taperR
  by_cases hn : n = 0
  · simp [hn]
  · simp only [hn, if_false]
    rw [target_flip n _ _ hn]

/-- The resolved record of the canonical parameter set. -/
def rCanon : Resolved :=
  ⟨2, ⟨10, 0⟩, ⟨4, 0⟩, ⟨20, 0⟩, ⟨20, 0⟩, ⟨8, 0⟩, ⟨8, 0⟩, ⟨1, 0⟩, ⟨2, 0⟩⟩

/-- C1: whenever the taper half-width resolves and rounds to N, the center
values, both boundary targets, delx and M all resolve, and N is
non-negative, compute_profile returns one record per index in ascending
order -N, ..., N, whose d and h entries agree with the specification
formula: exactly the center value at index 0, and otherwise
target - (target - v0) * 2 ^ (-(|n| / delx) ^ M) with target the right
boundary target for positive n and the left one for negative n. -/
theorem c1_profile_records (params : List (String × String)) (r : Resolved)
    (h : resolveProfileParams params = .ok r) (hN : 0 ≤ r.N)
    (hdelx : r.delx.mant ≠ 0) :
    ∃ l, compute_profile params = .ok l ∧ l.length = (2 * r.N + 1).toNat ∧
      ∀ k : ℕ, ∀ hk : k < l.length,
        l.get ⟨k, hk⟩ = (-r.N + (k : ℤ),
          specValue (decToReal r.d0) (decToReal r.dNl) (decToReal r.dNr)
            (decToReal r.delx) (decToReal r.M) (-r.N + (k : ℤ)),
          specValue (decToReal r.h0) (decToReal r.hNl) (decToReal r.hNr)
            (decToReal r.delx) (decToReal r.M) (-r.N + (k : ℤ))) := by
  refine ⟨_, compute_profile_eq params r h, ?_, ?_⟩
  · rw [List.length_map, idxRange_length]
  · intro k hk
    have hk2 : k < (idxRange r.N).length := by
      rw [List.length_map] at hk
      exact hk
    simp only [List.get_eq_getElem, List.getElem_map]
    rw [show (idxRange r.N)[k] = -r.N + (k : ℤ) from idxRange_get r.N k hk2,
      dVal_eq_specValue, hVal_eq_specValue]

/-- Witness for C1 at the canonical parameter set. -/
theorem c1_profile_records_witness :
    resolveProfileParams canonicalParams = .ok rCanon ∧ rCanon.delx.mant ≠ 0 ∧
    (∃ l, compute_profile canonicalParams = .ok l ∧ l.length = (2 * rCanon.N + 1).toNat ∧
      ∀ k : ℕ, ∀ hk : k < l.length,
        l.get ⟨k, hk⟩ = (-rCanon.N + (k : ℤ),
          specValue (decToReal rCanon.d0) (decToReal rCanon.dNl) (decToReal rCanon.dNr)
            (decToReal rCanon.delx) (decToReal rCanon.M) (-rCanon.N + (k : ℤ)),
          specValue (decToReal rCanon.h0) (decToReal rCanon.hNl) (decToReal rCanon.hNr)
            (decToReal rCanon.delx) (decToReal rCanon.M) (-rCanon.N + (k : ℤ)))) :=
  ⟨by decide, by decide,
    c1_profile_records canonicalParams rCanon (by decide) (by decide) (by decide)⟩

/-- A parameter set whose decay length is the literal 0 and whose taper
half-width is 1. -/
def delxZeroParams : List (String × String) :=
  [("n_ext", "1"), ("d0", "10"), ("h0", "4"), ("d17", "20"), ("h17", "8"),
   ("delx", "0"), ("M", "2")]

/-- The resolved record of delxZeroParams. -/
def rZero : Resolved :=
  ⟨1, ⟨10, 0⟩, ⟨4, 0⟩, ⟨20, 0⟩, ⟨20, 0⟩, ⟨8, 0⟩, ⟨8, 0⟩, ⟨0, 0⟩, ⟨2, 0⟩⟩

/-- C2 counterexample: with delx resolving to 0 and N = 1, compute_profile
does not fail at all: it returns normally with a full 3-record profile, so
no DomainError is raised for the nonzero indices (the source has no such
guard; the numpy scalar division by zero only warns). -/
theorem c2_delx_zero_counterexample :
    resolveProfileParams delxZeroParams = .ok rZero ∧ rZero.delx.mant = 0 ∧ rZero.N = 1 ∧
    exceptOk (compute_profile delxZeroParams) = true ∧
    profileLen (compute_profile delxZeroParams) = 3 := by
  have h := compute_profile_eq delxZeroParams rZero (by decide)
  refine ⟨by decide, by decide, by decide, ?_, ?_⟩
  · rw [h]
    rfl
  · rw [h]
    simp [profileLen, idxRange]
    rfl

/-- C2 amended: when delx resolves to the value 0 (and the other
parameters resolve, N non-negative), compute_profile raises nothing and
returns the full profile of 2N + 1 records; the zero decay length is not
guarded anywhere in the resolution or evaluation path. -/
theorem c2_delx_zero_returns (params : List (String × String)) (r : Resolved)
    (h : resolveProfileParams params = .ok r) (hdelx : r.delx.mant = 0) (hN : 0 ≤ r.N) :
    ∃ l, compute_profile params = .ok l ∧ l.length = (2 * r.N + 1).toNat :=
  ⟨_, compute_profile_eq params r h, by rw [List.length_map, idxRange_length]⟩

/-- Witness for the amended C2 at delxZeroParams. -/
theorem c2_delx_zero_returns_witness :
    rZero.delx.mant = 0 ∧ 0 ≤ rZero.N ∧
    (∃ l, compute_profile delxZeroParams = .ok l ∧ l.length = (2 * rZero.N + 1).toNat) :=
  ⟨by decide, by decide, c2_delx_zero_returns delxZeroParams rZero (by decide) (by decide) (by decide)⟩

/-- A parameter set whose taper half-width parameter is the literal -3. -/
def negativeNParams : List (String × String) :=
  [("n_ext", "-3"), ("d0", "1"), ("h0", "1"), ("d17", "2"), ("h17", "2"),
   ("delx", "1"), ("M", "2")]

/-- The resolved record of negativeNParams. -/
def rNeg : Resolved :=
  ⟨-3, ⟨1, 0⟩, ⟨1, 0⟩, ⟨2, 0⟩, ⟨2, 0⟩, ⟨2, 0⟩, ⟨2, 0⟩, ⟨1, 0⟩, ⟨2, 0⟩⟩

/-- C10: when every parameter resolves but the half-width rounds to a
negative N, compute_profile raises nothing and returns the empty record
sequence, since np.arange(-N, N + 1) is empty. -/
theorem c10_negative_halfwidth (params : List (String × String)) (r : Resolved)
    (h : resolveProfileParams params = .ok r) (hN : r.N < 0) :
    compute_profile params = .ok [] := by
  rw [compute_profile_eq params r h]
  have hz : (2 * r.N + 1).toNat = 0 := by omega
  simp [idxRange, hz]

/-- Witness for C10 at negativeNParams. -/
theorem c10_negative_halfwidth_witness :
    resolveProfileParams negativeNParams = .ok rNeg ∧ rNeg.N < 0 ∧
    compute_profile negativeNParams = .ok [] :=
  ⟨by decide, by decide, c10_negative_halfwidth negativeNParams rNeg (by decide) (by decide)⟩

/-! ### C9: generic-boundary fallback gives a symmetric profile -/

lemma optParse_of_lookup_none (params : List (String × String)) (k : String)
    (h : params.lookup k = none) : optParse params k = .ok none := by
  simp [optParse, h]

lemma resolveSide_none_none (params : List (String × String)) (ks : List String)
    (p : Dec × Dec) (h : resolveSide params none none ks = .ok p) : p.1 = p.2 := by
  unfold resolveSide at h
  cases hg : getAny params ks with
  | error e => rw [hg] at h; exact Except.noConfusion h
  | ok v =>
    rw [hg] at h
    cases h
    rfl

lemma resolve_no_side_keys (params : List (String × String)) (r : Resolved)
    (h1 : params.lookup "d17_mir" = none) (h2 : params.lookup "d17_wg" = none)
    (h3 : params.lookup "h17_mir" = none) (h4 : params.lookup "h17_wg" = none)
    (h : resolveProfileParams params = .ok r) :
    r.dNl = r.dNr ∧ r.hNl = r.hNr := by
  have o1 := optParse_of_lookup_none params _ h1
  have o2 := optParse_of_lookup_none params _ h2
  have o3 := optParse_of_lookup_none params _ h3
  have o4 := optParse_of_lookup_none params _ h4
  cases hA : getAny params ["n_ext", "N", "n", "N_unitcell"] with
  | error e => simp [resolveProfileParams, hA] at h
  | ok nv =>
  cases hB : getAny params ["d0"] with
  | error e => simp [resolveProfileParams, hA, hB] at h
  | ok d0v =>
  cases hC : getAny params ["h0"] with
  | error e => simp [resolveProfileParams, hA, hB, hC] at h
  | ok h0v =>
  cases hD : resolveSide params none none ["d17", "dN", "d_ext"] with
  | error e => simp [resolveProfileParams, hA, hB, hC, o1, o2, o3, o4, hD] at h
  | ok dlr =>
  cases hH : resolveSide params none none ["h17", "hN", "h_ext"] with
  | error e => simp [resolveProfileParams, hA, hB, hC, o1, o2, o3, o4, hD, hH] at h
  | ok hlr =>
  cases hX : getAny params ["delx", "delta_x", "dx"] with
  | error e => simp [resolveProfileParams, hA, hB, hC, o1, o2, o3, o4, hD, hH, hX] at h
  | ok delxv =>
  cases hM : getAny params ["M", "m"] with
  | error e => simp [resolveProfileParams, hA, hB, hC, o1, o2, o3, o4, hD, hH, hX, hM] at h
  | ok Mv =>
  simp only [resolveProfileParams, hA, hB, hC, o1, o2, o3, o4, hD, hH, hX, hM,
    Except.ok.injEq] at h
  subst h
  exact ⟨resolveSide_none_none params _ _ hD, resolveSide_none_none params _ _ hH⟩

lemma dVal_symm (r : Resolved) (hlr : r.dNl = r.dNr) (n : ℤ) : dVal r (-n) = dVal r n := by
  unfold dVal
  by_cases hn : n = 0
  · subst hn
    norm_num
  · have hn2 : ¬(-n = 0) := by omega
    simp only [hn, hn2, if_false, abs_neg, hlr, ite_self]

lemma hVal_symm (r : Resolved) (hlr : r.hNl = r.hNr) (n : ℤ) : hVal r (-n) = hVal r n := by
  unfold hVal
  by_cases hn : n = 0
  · subst hn
    norm_num
  · have hn2 : ¬(-n = 0) := by omega
    simp only [hn, hn2, if_false, abs_neg, hlr, ite_self]

/-- C9: when none of the side-specific boundary keys d17_mir, d17_wg,
h17_mir, h17_wg is present, the generic boundary target is used for both
sides, so the resolved left and right targets coincide and the profile is
left/right symmetric; in particular the canonical parameter set yields the
index sequence -2, -1, 0, 1, 2 with identical d and h values at opposite
indices. -/
theorem c9_symmetric_profile :
    (∀ (params : List (String × String)) (r : Resolved),
      params.lookup "d17_mir" = none → params.lookup "d17_wg" = none →
      params.lookup "h17_mir" = none → params.lookup "h17_wg" = none →
      resolveProfileParams params = .ok r →
      r.dNl = r.dNr ∧ r.hNl = r.hNr ∧
        ∀ n : ℤ, dVal r (-n) = dVal r n ∧ hVal r (-n) = hVal r n) ∧
    (∃ l, compute_profile canonicalParams = .ok l ∧
      l.map (fun t => t.1) = [-2, -1, 0, 1, 2] ∧
      ∀ t ∈ l, ∀ t' ∈ l, t.1 = -t'.1 → t.2.1 = t'.2.1 ∧ t.2.2 = t'.2.2) := by
  constructor
  · intro params r h1 h2 h3 h4 h
    obtain ⟨hd, hh⟩ := resolve_no_side_keys params r h1 h2 h3 h4 h
    exact ⟨hd, hh, fun n => ⟨dVal_symm r hd n, hVal_symm r hh n⟩⟩
  · refine ⟨_, compute_profile_eq canonicalParams rCanon (by decide), ?_, ?_⟩
    · have h2 : idxRange rCanon.N = [-2, -1, 0, 1, 2] := by decide
      simp [List.map_map, Function.comp_def, h2]
    · intro t ht t' ht' heq
      simp only [List.mem_map] at ht ht'
      obtain ⟨n, hn, rfl⟩ := ht
      obtain ⟨n', hn', rfl⟩ := ht'
      simp only at heq
      subst heq
      exact ⟨dVal_symm rCanon (by decide) n', hVal_symm rCanon (by decide) n'⟩

/-- Witness for C9 at the canonical parameter set. -/
theorem c9_symmetric_profile_witness :
    rCanon.dNl = rCanon.dNr ∧ rCanon.hNl = rCanon.hNr ∧
    ∀ n : ℤ, dVal rCanon (-n) = dVal rCanon n ∧ hVal rCanon (-n) = hVal rCanon n :=
  c9_symmetric_profile.1 canonicalParams rCanon (by decide) (by decide) (by decide)
    (by decide) (by decide)

/-! ### C5: monotonicity of the taper curve -/

lemma taperR_lt_taperR (delx M v0 vT : ℝ) (hd : 0 < delx) (hM : 0 < M)
    {a b : ℝ} (ha : 0 < a) (hab : a < b) (hv : v0 < vT) :
    taperR delx M v0 vT a < taperR delx M v0 vT b := by
  have hda : 0 < a / delx := div_pos ha hd
  have hdb : a / delx < b / delx := by gcongr
  have hp : (a / delx) ^ M < (b / delx) ^ M := Real.rpow_lt_rpow (le_of_lt hda) hdb hM
  have h2 : (2 : ℝ) ^ (-((b / delx) ^ M)) < (2 : ℝ) ^ (-((a / delx) ^ M)) :=
    (Real.rpow_lt_rpow_left_iff one_lt_two).mpr (by linarith)
  have hm := mul_lt_mul_of_pos_left h2 (sub_pos.mpr hv)
  unfold taperR
  linarith

lemma taperR_mem (delx M v0 vT : ℝ) (hd : 0 < delx) (hM : 0 < M)
    {a : ℝ} (ha : 0 < a) (hv : v0 < vT) :
    v0 < taperR delx M v0 vT a ∧ taperR delx M v0 vT a < vT := by
  have hda : 0 < a / delx := div_pos ha hd
  have hge : 0 < (a / delx) ^ M := Real.rpow_pos_of_pos hda M
  have hg0 : 0 < (2 : ℝ) ^ (-((a / delx) ^ M)) := Real.rpow_pos_of_pos two_pos _
  have hg1 : (2 : ℝ) ^ (-((a / delx) ^ M)) < 1 :=
    Real.rpow_lt_one_of_one_lt_of_neg one_lt_two (by linarith)
  unfold taperR
  constructor
  · nlinarith [mul_lt_mul_of_pos_left hg1 (sub_pos.mpr hv)]
  · nlinarith [mul_pos (sub_pos.mpr hv) hg0]

lemma taperR_neg_flip (delx M v0 vT a : ℝ) :
    taperR delx M (-v0) (-vT) a = -taperR delx M v0 vT a := by
  unfold taperR
  ring

lemma taperR_self (delx M v a : ℝ) : taperR delx M v v a = v := by
  unfold taperR
  ring

/-- The three-way monotonicity contract of the specification for one
quantity on one side: x and y are the values at a smaller and a larger
positive index, v0 the center value, vT the boundary target. -/
def monoBlock (v0 vT x y : ℝ) : Prop :=
  (v0 < vT → x < y ∧ v0 < x ∧ y < vT) ∧
  (vT < v0 → y < x ∧ x < v0 ∧ vT < y) ∧
  (v0 = vT → x = v0 ∧ y = v0)

lemma taperR_monoBlock (delx M v0 vT : ℝ) (hd : 0 < delx) (hM : 0 < M)
    {a b : ℝ} (ha : 0 < a) (hab : a < b) :
    monoBlock v0 vT (taperR delx M v0 vT a) (taperR delx M v0 vT b) := by
  have hb : 0 < b := lt_trans ha hab
  refine ⟨fun hv => ⟨taperR_lt_taperR delx M v0 vT hd hM ha hab hv,
      (taperR_mem delx M v0 vT hd hM ha hv).1, (taperR_mem delx M v0 vT hd hM hb hv).2⟩,
    fun hv => ?_, fun hv => ?_⟩
  · have hv2 : -v0 < -vT := neg_lt_neg hv
    have q1 := taperR_lt_taperR delx M (-v0) (-vT) hd hM ha hab hv2
    have q2 := taperR_mem delx M (-v0) (-vT) hd hM ha hv2
    have q3 := taperR_mem delx M (-v0) (-vT) hd hM hb hv2
    simp only [taperR_neg_flip] at q1 q2 q3
    exact ⟨by linarith [q1], by linarith [q2.1], by linarith [q3.2]⟩
  · subst hv
    rw [taperR_self, taperR_self]
    exact ⟨rfl, rfl⟩

lemma dVal_pos (r : Resolved) (n : ℤ) (hn : 1 ≤ n) :
    dVal r n = taperR (decToReal r.delx) (decToReal r.M) (decToReal r.d0)
      (decToReal r.dNr) ((n : ℤ) : ℝ) := by
  unfold dVal
  have h0 : ¬(n = 0) := by omega
  have h1 : ¬(n < 0) := by omega
  simp [h0, h1, abs_of_pos (show (0 : ℤ) < n by omega)]

lemma dVal_negIdx (r : Resolved) (n : ℤ) (hn : 1 ≤ n) :
    dVal r (-n) = taperR (decToReal r.delx) (decToReal r.M) (decToReal r.d0)
      (decToReal r.dNl) ((n : ℤ) : ℝ) := by
  unfold dVal
  have h0 : ¬(-n = 0) := by omega
  have h1 : -n < 0 := by omega
  simp [h0, h1, abs_neg, abs_of_pos (show (0 : ℤ) < n by omega)]

lemma hVal_pos (r : Resolved) (n : ℤ) (hn : 1 ≤ n) :
    hVal r n = taperR (decToReal r.delx) (decToReal r.M) (decToReal r.h0)
      (decToReal r.hNr) ((n : ℤ) : ℝ) := by
  unfold hVal
  have h0 : ¬(n = 0) := by omega
  have h1 : ¬(n < 0) := by omega
  simp [h0, h1, abs_of_pos (show (0 : ℤ) < n by omega)]

lemma hVal_negIdx (r : Resolved) (n : ℤ) (hn : 1 ≤ n) :
    hVal r (-n) = taperR (decToReal r.delx) (decToReal r.M) (decToReal r.h0)
      (decToReal r.hNl) ((n : ℤ) : ℝ) := by
  unfold hVal
  have h0 : ¬(-n = 0) := by omega
  have h1 : -n < 0 := by omega
  simp [h0, h1, abs_neg, abs_of_pos (show (0 : ℤ) < n by omega)]

/-- A parameter set with nonzero delx whose decay order M is -1. -/
def negMParams : List (String × String) :=
  [("n_ext", "2"), ("d0", "0"), ("h0", "0"), ("d17", "1"), ("h17", "1"),
   ("delx", "1"), ("M", "-1")]

/-- The resolved record of negMParams. -/
def rNegM : Resolved :=
  ⟨2, ⟨0, 0⟩, ⟨0, 0⟩, ⟨1, 0⟩, ⟨1, 0⟩, ⟨1, 0⟩, ⟨1, 0⟩, ⟨1, 0⟩, ⟨-1, 0⟩⟩

/-- C5 counterexample: a parameter set with delx nonzero (delx = 1, M = -1)
whose right boundary target exceeds d0, yet the d values at indices 1 and 2
strictly decrease, refuting the claimed monotone increase for all
parameter sets with merely nonzero delx. -/
theorem c5_monotone_counterexample :
    resolveProfileParams negMParams = .ok rNegM ∧
    decToReal rNegM.d0 < decToReal rNegM.dNr ∧
    dVal rNegM 2 < dVal rNegM 1 := by
  refine ⟨by decide, by norm_num [decToReal, rNegM], ?_⟩
  have h1 : dVal rNegM 1 = 1 - (2 : ℝ) ^ (-(1 : ℝ)) := by
    rw [dVal_pos rNegM 1 (by omega)]
    norm_num [taperR, decToReal, rNegM, Real.one_rpow]
  have h2 : dVal rNegM 2 = 1 - (2 : ℝ) ^ (-((2 : ℝ) ^ (-(1 : ℝ)))) := by
    rw [dVal_pos rNegM 2 (by omega)]
    norm_num [taperR, decToReal, rNegM]
  have key : (2 : ℝ) ^ (-(1 : ℝ)) < (2 : ℝ) ^ (-((2 : ℝ) ^ (-(1 : ℝ)))) := by
    apply (Real.rpow_lt_rpow_left_iff one_lt_two).mpr
    rw [Real.rpow_neg_one]
    norm_num
  rw [h1, h2]
  linarith

/-- C5 amended: for every resolved parameter set with positive decay
length and positive decay order, the d and h sequences on indices 1..N
are strictly monotone from the center value toward the respective right
boundary target (increasing when the target exceeds the center value,
decreasing when below, constant when equal, and always strictly between
the two when they differ), and symmetrically on indices -1..-N toward the
left targets. -/
theorem c5_monotone_amended (params : List (String × String)) (r : Resolved)
    (h : resolveProfileParams params = .ok r)
    (hd : 0 < decToReal r.delx) (hM : 0 < decToReal r.M)
    (n m : ℤ) (hn : 1 ≤ n) (hnm : n < m) (hm : m ≤ r.N) :
    monoBlock (decToReal r.d0) (decToReal r.dNr) (dVal r n) (dVal r m) ∧
    monoBlock (decToReal r.d0) (decToReal r.dNl) (dVal r (-n)) (dVal r (-m)) ∧
    monoBlock (decToReal r.h0) (decToReal r.hNr) (hVal r n) (hVal r m) ∧
    monoBlock (decToReal r.h0) (decToReal r.hNl) (hVal r (-n)) (hVal r (-m)) := by
  have hmn : 1 ≤ m := by omega
  have ha : (0 : ℝ) < (n : ℝ) := by exact_mod_cast (show (0 : ℤ) < n by omega)
  have hab : ((n : ℝ)) < (m : ℝ) := by exact_mod_cast hnm
  rw [dVal_pos r n hn, dVal_pos r m hmn, dVal_negIdx r n hn, dVal_negIdx r m hmn,
    hVal_pos r n hn, hVal_pos r m hmn, hVal_negIdx r n hn, hVal_negIdx r m hmn]
  exact ⟨taperR_monoBlock _ _ _ _ hd hM ha hab, taperR_monoBlock _ _ _ _ hd hM ha hab,
    taperR_monoBlock _ _ _ _ hd hM ha hab, taperR_monoBlock _ _ _ _ hd hM ha hab⟩

/-- Witness for the amended C5 at the canonical parameter set, n = 1, m = 2. -/
theorem c5_monotone_amended_witness :
    0 < decToReal rCanon.delx ∧ 0 < decToReal rCanon.M ∧
    (monoBlock (decToReal rCanon.d0) (decToReal rCanon.dNr) (dVal rCanon 1) (dVal rCanon 2) ∧
     monoBlock (decToReal rCanon.d0) (decToReal rCanon.dNl) (dVal rCanon (-1)) (dVal rCanon (-2)) ∧
     monoBlock (decToReal rCanon.h0) (decToReal rCanon.hNr) (hVal rCanon 1) (hVal rCanon 2) ∧
     monoBlock (decToReal rCanon.h0) (decToReal rCanon.hNl) (hVal rCanon (-1)) (hVal rCanon (-2))) :=
  ⟨by norm_num [decToReal, rCanon], by norm_num [decToReal, rCanon],
    c5_monotone_amended canonicalParams rCanon (by decide) (by norm_num [decToReal, rCanon])
      (by norm_num [decToReal, rCanon]) 1 2 (by omega) (by omega) (by decide)⟩

/-! ### C4: variant parameter composition -/

lemma dictSet_lookup_self (d : List (String × String)) (k v : String) :
    (dictSet d k v).lookup k = some v := by
  induction d with
  | nil => simp [dictSet, List.lookup]
  | cons kv rest ih =>
    obtain ⟨k1, v1⟩ := kv
    by_cases h : k1 = k
    · subst h
      simp [dictSet, List.lookup]
    · have hb : (k == k1) = false := beq_eq_false_iff_ne.mpr (Ne.symm h)
      simp [dictSet, h, List.lookup, ih, hb]

lemma dictSet_lookup_other (d : List (String × String)) (k v k' : String) (hne : k' ≠ k) :
    (dictSet d k v).lookup k' = d.lookup k' := by
  have hb : (k' == k) = false := beq_eq_false_iff_ne.mpr hne
  induction d with
  | nil => simp [dictSet, List.lookup, hb]
  | cons kv rest ih =>
    obtain ⟨k1, v1⟩ := kv
    by_cases h : k1 = k
    · subst h
      simp [dictSet, List.lookup, hb]
    · by_cases h2 : k1 = k'
      · subst h2
        simp [dictSet, h, List.lookup]
      · simp [dictSet, h, h2, List.lookup, ih]

lemma setIfPresent_lookup_dst (base p : List (String × String)) (src dst : String) :
    (setIfPresent base p src dst).lookup dst =
      match base.lookup src with
      | some v => some v
      | none => p.lookup dst := by
  unfold setIfPresent
  cases base.lookup src with
  | none => rfl
  | some v => exact dictSet_lookup_self p dst v

lemma setIfPresent_lookup_other (base p : List (String × String)) (src dst k' : String)
    (hne : k' ≠ dst) :
    (setIfPresent base p src dst).lookup k' = p.lookup k' := by
  unfold setIfPresent
  cases base.lookup src with
  | none => rfl
  | some v => exact dictSet_lookup_other p dst v k' hne

/-- C4: composing the mirror variant sets the index-count key n to the
string 17 and copies d17_mir/h17_mir into the d17/h17 slots when present
(leaving them as in base when absent); the defect variant sets n to 0 and
touches nothing else; the waveguide variant (kinds wg and waveguide) sets
n to 17 and copies d17_wg/h17_wg; every other key of base is looked up
unchanged in the result; an unrecognized kind fails with ValueError and,
the composer being a pure function, nothing is mutated. -/
theorem c4_variant_composition (base : List (String × String)) :
    (∃ p, planned_params_for "mirror" base = .ok p ∧
      p.lookup "n" = some "17" ∧
      (∀ v, base.lookup "d17_mir" = some v → p.lookup "d17" = some v) ∧
      (base.lookup "d17_mir" = none → p.lookup "d17" = base.lookup "d17") ∧
      (∀ v, base.lookup "h17_mir" = some v → p.lookup "h17" = some v) ∧
      (base.lookup "h17_mir" = none → p.lookup "h17" = base.lookup "h17") ∧
      (∀ k, k ≠ "n" → k ≠ "d17" → k ≠ "h17" → p.lookup k = base.lookup k)) ∧
    (∃ p, planned_params_for "defect" base = .ok p ∧
      p.lookup "n" = some "0" ∧
      (∀ k, k ≠ "n" → p.lookup k = base.lookup k)) ∧
    (∃ p, planned_params_for "wg" base = .ok p ∧
      planned_params_for "waveguide" base = .ok p ∧
      p.lookup "n" = some "17" ∧
      (∀ v, base.lookup "d17_wg" = some v → p.lookup "d17" = some v) ∧
      (base.lookup "d17_wg" = none → p.lookup "d17" = base.lookup "d17") ∧
      (∀ v, base.lookup "h17_wg" = some v → p.lookup "h17" = some v) ∧
      (base.lookup "h17_wg" = none → p.lookup "h17" = base.lookup "h17") ∧
      (∀ k, k ≠ "n" → k ≠ "d17" → k ≠ "h17" → p.lookup k = base.lookup k)) ∧
    (∀ kind, pyLower kind ∉ (["mirror", "defect", "mirror_defect", "defectmirror",
        "wg", "waveguide", "mirror_wg", "mirrorwg"] : List String) →
      planned_params_for kind base = .error ()) := by
  refine ⟨?_, ?_, ?_, ?_⟩
  · refine ⟨setIfPresent base (setIfPresent base (dictSet base "n" "17")
        "d17_mir" "d17") "h17_mir" "h17",
      by simp [planned_params_for, show pyLower "mirror" = "mirror" from by decide],
      ?_, ?_, ?_, ?_, ?_, ?_⟩
    · rw [setIfPresent_lookup_other _ _ _ _ _ (by decide),
        setIfPresent_lookup_other _ _ _ _ _ (by decide), dictSet_lookup_self]
    · intro v hv
      rw [setIfPresent_lookup_other _ _ _ _ _ (by decide), setIfPresent_lookup_dst, hv]
    · intro hv
      rw [setIfPresent_lookup_other _ _ _ _ _ (by decide), setIfPresent_lookup_dst, hv,
        dictSet_lookup_other _ _ _ _ (by decide)]
    · intro v hv
      rw [setIfPresent_lookup_dst, hv]
    · intro hv
      rw [setIfPresent_lookup_dst, hv, setIfPresent_lookup_other _ _ _ _ _ (by decide),
        dictSet_lookup_other _ _ _ _ (by decide)]
    · intro k hk1 hk2 hk3
      rw [setIfPresent_lookup_other _ _ _ _ _ hk3, setIfPresent_lookup_other _ _ _ _ _ hk2,
        dictSet_lookup_other _ _ _ _ hk1]
  · refine ⟨_, by simp [planned_params_for, show pyLower "defect" = "defect" from by decide],
      dictSet_lookup_self base "n" "0", ?_⟩
    intro k hk
    exact dictSet_lookup_other base "n" "0" k hk
  · refine ⟨setIfPresent base (setIfPresent base (dictSet base "n" "17")
        "d17_wg" "d17") "h17_wg" "h17",
      by simp [planned_params_for, show pyLower "wg" = "wg" from by decide],
      by simp [planned_params_for, show pyLower "waveguide" = "waveguide" from by decide],
      ?_, ?_, ?_, ?_, ?_, ?_⟩
    · rw [setIfPresent_lookup_other _ _ _ _ _ (by decide),
        setIfPresent_lookup_other _ _ _ _ _ (by decide), dictSet_lookup_self]
    · intro v hv
      rw [setIfPresent_lookup_other _ _ _ _ _ (by decide), setIfPresent_lookup_dst, hv]
    · intro hv
      rw [setIfPresent_lookup_other _ _ _ _ _ (by decide), setIfPresent_lookup_dst, hv,
        dictSet_lookup_other _ _ _ _ (by decide)]
    · intro v hv
      rw [setIfPresent_lookup_dst, hv]
    · intro hv
      rw [setIfPresent_lookup_dst, hv, setIfPresent_lookup_other _ _ _ _ _ (by decide),
        dictSet_lookup_other _ _ _ _ (by decide)]
    · intro k hk1 hk2 hk3
      rw [setIfPresent_lookup_other _ _ _ _ _ hk3, setIfPresent_lookup_other _ _ _ _ _ hk2,
        dictSet_lookup_other _ _ _ _ hk1]
  · intro kind hk
    simp only [List.mem_cons, List.mem_singleton, not_or] at hk
    obtain ⟨q1, q2, q3, q4, q5, q6, q7, q8⟩ := hk
    simp [planned_params_for, q1, q2, q3, q4, q5, q6, q7, q8]

/-- The base parameter set of the specification example for C4. -/
def mirBase : List (String × String) :=
  [("d17_mir", "5[nm]"), ("h17_mir", "2[nm]"), ("n_ext", "17")]

/-- Witness for C4 at the specification example base. -/
theorem c4_variant_composition_witness :
    (∃ p, planned_params_for "mirror" mirBase = .ok p ∧ p.lookup "n" = some "17" ∧
      p.lookup "d17" = some "5[nm]" ∧ p.lookup "h17" = some "2[nm]" ∧
      p.lookup "n_ext" = some "17") ∧
    (∃ p, planned_params_for "defect" mirBase = .ok p ∧ p.lookup "n" = some "0" ∧
      p.lookup "d17" = none ∧ p.lookup "h17" = none) ∧
    planned_params_for "bogus" mirBase = .error () := by
  obtain ⟨⟨pm, hpm, hn, hd17p, hd17a, hh17p, hh17a, hoth⟩, ⟨pd, hpd, hn0, hothd⟩,
    hwg, hunk⟩ := c4_variant_composition mirBase
  exact ⟨⟨pm, hpm, hn, hd17p "5[nm]" (by decide), hh17p "2[nm]" (by decide),
      (hoth "n_ext" (by decide) (by decide) (by decide)).trans (by decide)⟩,
    ⟨pd, hpd, hn0, (hothd "d17" (by decide)).trans (by decide),
      (hothd "h17" (by decide)).trans (by decide)⟩,
    hunk "bogus" (by decide)⟩

/-! ### C6 and C8: the mismatch detector -/

lemma detect_cons_none (reader : Option (String → Option String)) (kv : String × String)
    (rest : List (String × String)) (h : readCurrent reader kv.1 = none) :
    detect_param_mismatches reader (kv :: rest) =
      (kv.1, (none, kv.2)) :: detect_param_mismatches reader rest := by
  simp [detect_param_mismatches, List.filterMap_cons, h]

lemma detect_cons_match (reader : Option (String → Option String)) (kv : String × String)
    (rest : List (String × String)) (c : String) (h : readCurrent reader kv.1 = some c)
    (he : pyStrip c = pyStrip kv.2) :
    detect_param_mismatches reader (kv :: rest) = detect_param_mismatches reader rest := by
  simp [detect_param_mismatches, List.filterMap_cons, h, he]

lemma detect_cons_diff (reader : Option (String → Option String)) (kv : String × String)
    (rest : List (String × String)) (c : String) (h : readCurrent reader kv.1 = some c)
    (he : ¬(pyStrip c = pyStrip kv.2)) :
    detect_param_mismatches reader (kv :: rest) =
      (kv.1, (some c, kv.2)) :: detect_param_mismatches reader rest := by
  simp [detect_param_mismatches, List.filterMap_cons, h, he]

lemma detect_all_unavailable (reader : Option (String → Option String))
    (planned : List (String × String)) :
    (∀ kv ∈ planned, readCurrent reader kv.1 = none) →
    detect_param_mismatches reader planned = planned.map fun kv => (kv.1, (none, kv.2)) := by
  induction planned with
  | nil => intro h; rfl
  | cons kv rest ih =>
    intro h
    rw [detect_cons_none reader kv rest (h kv (by simp)), List.map_cons,
      ih (fun kv2 hm => h kv2 (by simp [hm]))]

lemma detect_all_match (reader : Option (String → Option String))
    (planned : List (String × String)) :
    (∀ kv ∈ planned, ∃ c, readCurrent reader kv.1 = some c ∧ pyStrip c = pyStrip kv.2) →
    detect_param_mismatches reader planned = [] := by
  induction planned with
  | nil => intro h; rfl
  | cons kv rest ih =>
    intro h
    obtain ⟨c, hc, he⟩ := h kv (by simp)
    rw [detect_cons_match reader kv rest c hc he, ih (fun kv2 hm => h kv2 (by simp [hm]))]

/-- C6: when the reader yields nothing for every planned name (getter
absent, raising, or returning None), every planned parameter is reported
as a mismatch carrying an absent current value and the planned value, in
planned order; and when the reader returns, for every planned name, a
value equal to the planned one after stripping whitespace on both sides,
the diff collection is empty. -/
theorem c6_detect_policy (reader : Option (String → Option String))
    (planned : List (String × String)) :
    ((∀ kv ∈ planned, readCurrent reader kv.1 = none) →
      detect_param_mismatches reader planned =
        planned.map fun kv => (kv.1, (none, kv.2))) ∧
    ((∀ kv ∈ planned, ∃ c, readCurrent reader kv.1 = some c ∧ pyStrip c = pyStrip kv.2) →
      detect_param_mismatches reader planned = []) :=
  ⟨detect_all_unavailable reader planned, detect_all_match reader planned⟩

/-- A two-entry planned set, deliberately not in ascending name order. -/
def plannedW : List (String × String) := [("b", "1"), ("a", "2")]

/-- A reader returning values that strip-equal the planned ones. -/
def readerW : Option (String → Option String) :=
  some (fun k => if k = "a" then some " 2 " else if k = "b" then some "1" else none)

/-- Witness for C6 at plannedW with the absent reader and with readerW. -/
theorem c6_detect_policy_witness :
    detect_param_mismatches none plannedW = [("b", (none, "1")), ("a", (none, "2"))] ∧
    detect_param_mismatches readerW plannedW = [] := by
  constructor
  · exact ((c6_detect_policy none plannedW).1 (fun kv hm => rfl)).trans (by decide)
  · apply (c6_detect_policy readerW plannedW).2
    intro kv hm
    rcases List.mem_cons.mp hm with h | h
    · subst h
      exact ⟨"1", by decide, by decide⟩
    · rcases List.mem_singleton.mp h with h2
      subst h2
      exact ⟨" 2 ", by decide, by decide⟩

/-- C8 counterexample: with the planned set inserted in the order b, a and
an unavailable reader, detect_param_mismatches returns its entries in the
order b, a, although a sorts before b: the result is in planned insertion
order, not ascending name order. -/
theorem c8_order_counterexample :
    (detect_param_mismatches none plannedW).map (fun e => e.1) = ["b", "a"] ∧
    ("a" : String) < "b" := by
  constructor
  · decide
  · exact String.lt_iff_toList_lt.mpr (List.Lex.rel (show ('a' : Char) < 'b' by decide))

/-- C8 amended: the mismatch sequence of detect_param_mismatches lists
parameter names as a subsequence of the planned set in its insertion
(iteration) order, for every reader; ascending-name sorting happens only
in the dry-run report of main, not in the detector. -/
theorem c8_order_amended (reader : Option (String → Option String))
    (planned : List (String × String)) :
    List.Sublist ((detect_param_mismatches reader planned).map (fun e => e.1))
      (planned.map (fun kv => kv.1)) := by
  induction planned with
  | nil => simp [detect_param_mismatches]
  | cons kv rest ih =>
    cases hc : readCurrent reader kv.1 with
    | none =>
      rw [detect_cons_none reader kv rest hc]
      simp only [List.map_cons]
      exact ih.cons₂ kv.1
    | some c =>
      by_cases he : pyStrip c = pyStrip kv.2
      · rw [detect_cons_match reader kv rest c hc he]
        simp only [List.map_cons]
        exact ih.cons kv.1
      · rw [detect_cons_diff reader kv rest c hc he]
        simp only [List.map_cons]
        exact ih.cons₂ kv.1

/-! ### C3 and C7: the per-variant orchestration loop -/

/-- Is the call one of the given kind (any operation). -/
def touchesKind (kind : String) : ECall → Bool
  | .load k => k = kind
  | .setParam k _ _ => k = kind
  | .build k _ => k = kind
  | .mesh k _ => k = kind
  | .solve k _ _ => k = kind
  | .exportData k _ _ => k = kind
  | .save k _ => k = kind
  | .clear => false

/-- Is the call a setParameter application for the given kind. -/
def isSetParamFor (kind : String) : ECall → Bool
  | .setParam k _ _ => k = kind
  | _ => false

/-- Is the call a solve invocation for the given kind. -/
def isSolveFor (kind : String) : ECall → Bool
  | .solve k _ _ => k = kind
  | _ => false

/-- An engine whose models all exist, whose parameter getter is
unavailable, and whose build, mesh and solve all raise. -/
def engFail : Engine where
  modelExists := fun _ => true
  reader := fun _ => none
  buildOk := fun _ => false
  meshOk := fun _ => false
  solveOk := fun _ => false
  exportsOf := fun _ => []
  exportOk := fun _ _ => false
  saveOk := fun _ => false

/-- The default flag set: study std1, no force, no dry-run, no save. -/
def cfgPlain : SyncConfig := ⟨"std1", false, false, false, none⟩

/-- The same flags with force set. -/
def cfgForce : SyncConfig := ⟨"std1", true, false, false, none⟩

/-- A one-parameter base set. -/
def baseSmall : List (String × String) := [("d0", "10")]

/-- C3 counterexample: with two selected variants and an engine whose
solve raises, the run aborts with the exception after the first variant's
solve: the trace shows build and mesh failures swallowed and solve still
attempted, but the second variant is never processed (zero calls of any
kind for it), refuting the claim that the orchestrator proceeds to the
next selected variant after a solve failure. -/
theorem c3_solve_abort_counterexample :
    runSync engFail cfgPlain baseSmall ["mirror", "defect"] =
      ([ECall.load "mirror", ECall.setParam "mirror" "d0" "10",
        ECall.setParam "mirror" "n" "17", ECall.build "mirror" false,
        ECall.mesh "mirror" false, ECall.solve "mirror" "std1" false, ECall.clear], true) ∧
    List.countP (touchesKind "defect")
      (runSync engFail cfgPlain baseSmall ["mirror", "defect"]).1 = 0 := by
  constructor
  · decide
  · decide

/-- C3 amended: once a variant reaches the apply phase (model present,
composition succeeded, not a dry run, diffs nonempty or force set), build
and mesh are attempted with whatever outcome the engine gives and solve is
attempted regardless of their failures; the run aborts exactly when solve
raises, in which case the variant's export and save steps never happen and
the loop stops with the trace so far plus the final clear: the remaining
selected variants are not processed. -/
theorem c3_solve_fatal (eng : Engine) (cfg : SyncConfig) (base : List (String × String))
    (kind : String) (planned : List (String × String))
    (hex : eng.modelExists kind = true)
    (hpl : planned_params_for kind base = .ok planned)
    (hdry : cfg.dryRun = false)
    (hgo : detect_param_mismatches (eng.reader kind) planned ≠ [] ∨ cfg.force = true) :
    ECall.build kind (eng.buildOk kind) ∈ (runVariant eng cfg base kind).1 ∧
    ECall.mesh kind (eng.meshOk kind) ∈ (runVariant eng cfg base kind).1 ∧
    ECall.solve kind cfg.study (eng.solveOk kind) ∈ (runVariant eng cfg base kind).1 ∧
    ((runVariant eng cfg base kind).2 = true ↔ eng.solveOk kind = false) ∧
    (eng.solveOk kind = false →
      (∀ nm ok2, ECall.exportData kind nm ok2 ∉ (runVariant eng cfg base kind).1) ∧
      (∀ ok2, ECall.save kind ok2 ∉ (runVariant eng cfg base kind).1) ∧
      ∀ rest, runSync eng cfg base (kind :: rest) =
        ((runVariant eng cfg base kind).1 ++ [ECall.clear], true)) := by
  have hskip : ((detect_param_mismatches (eng.reader kind) planned).isEmpty
      && !cfg.force) = false := by
    rcases hgo with h | h
    · have he : (detect_param_mismatches (eng.reader kind) planned).isEmpty = false := by
        cases he2 : (detect_param_mismatches (eng.reader kind) planned).isEmpty
        · rfl
        · exact absurd (List.isEmpty_iff.mp he2) h
      simp [he]
    · simp [h]
  refine ⟨?_, ?_, ?_, ?_, ?_⟩
  · cases hsv : eng.solveOk kind <;> simp [runVariant, hex, hpl, hdry, hskip, hsv]
  · cases hsv : eng.solveOk kind <;> simp [runVariant, hex, hpl, hdry, hskip, hsv]
  · cases hsv : eng.solveOk kind <;> simp [runVariant, hex, hpl, hdry, hskip, hsv]
  · cases hsv : eng.solveOk kind <;> simp [runVariant, hex, hpl, hdry, hskip, hsv]
  · intro hsv
    refine ⟨?_, ?_, ?_⟩
    · intro nm ok2
      simp [runVariant, hex, hpl, hdry, hskip, hsv]
    · intro ok2
      simp [runVariant, hex, hpl, hdry, hskip, hsv]
    · intro rest
      simp [runSync, runVariant, hex, hpl, hdry, hskip, hsv]

/-- Witness for the amended C3 at engFail with the mirror then defect
variants. -/
theorem c3_solve_fatal_witness :
    ECall.solve "mirror" "std1" false ∈ (runVariant engFail cfgPlain baseSmall "mirror").1 ∧
    (runVariant engFail cfgPlain baseSmall "mirror").2 = true ∧
    ECall.save "mirror" false ∉ (runVariant engFail cfgPlain baseSmall "mirror").1 ∧
    runSync engFail cfgPlain baseSmall ["mirror", "defect"] =
      ((runVariant engFail cfgPlain baseSmall "mirror").1 ++ [ECall.clear], true) := by
  have h := c3_solve_fatal engFail cfgPlain baseSmall "mirror" [("d0", "10"), ("n", "17")]
    rfl (by decide) rfl (Or.inl (by decide))
  obtain ⟨hb, hm, hs, hiff, himp⟩ := h
  have h5 := himp rfl
  exact ⟨hs, hiff.mpr rfl, h5.2.1 false, h5.2.2 ["defect"]⟩

/-- C7: for a variant whose diff list is empty (and not a dry run): with
force unset the variant is skipped after the load, making zero
setParameter and zero solve calls; with force set, setParameter is still
called zero times (there is nothing to apply) and solve is invoked exactly
once for that variant. -/
theorem c7_empty_diff_skip (eng : Engine) (cfg : SyncConfig) (base : List (String × String))
    (kind : String) (planned : List (String × String))
    (hex : eng.modelExists kind = true)
    (hpl : planned_params_for kind base = .ok planned)
    (hdiff : detect_param_mismatches (eng.reader kind) planned = [])
    (hdry : cfg.dryRun = false) :
    (cfg.force = false →
      (runVariant eng cfg base kind).1 = [ECall.load kind] ∧
      List.countP (isSetParamFor kind) (runVariant eng cfg base kind).1 = 0 ∧
      List.countP (isSolveFor kind) (runVariant eng cfg base kind).1 = 0) ∧
    (cfg.force = true →
      List.countP (isSetParamFor kind) (runVariant eng cfg base kind).1 = 0 ∧
      List.countP (isSolveFor kind) (runVariant eng cfg base kind).1 = 1) := by
  constructor
  · intro hf
    have hrv : runVariant eng cfg base kind = ([ECall.load kind], false) := by
      simp [runVariant, hex, hpl, hdiff, hdry, hf]
    rw [hrv]
    refine ⟨rfl, ?_, ?_⟩ <;> simp [List.countP_cons, isSetParamFor, isSolveFor]
  · intro hf
    cases hsv : eng.solveOk kind
    · simp [runVariant, hex, hpl, hdiff, hdry, hf, hsv, List.countP_append,
        List.countP_cons, isSetParamFor, isSolveFor]
    · cases hsx : effectiveExportName cfg eng kind <;> cases hss : cfg.saveSolved <;>
        simp [runVariant, hex, hpl, hdiff, hdry, hf, hsv, hsx, hss, List.countP_append,
          List.countP_cons, isSetParamFor, isSolveFor]

/-- An engine whose reader returns exactly the planned defect values. -/
def engMatch : Engine where
  modelExists := fun _ => true
  reader := fun _ => some (fun k => if k = "d0" then some "10"
    else if k = "n" then some "0" else none)
  buildOk := fun _ => true
  meshOk := fun _ => true
  solveOk := fun _ => true
  exportsOf := fun _ => []
  exportOk := fun _ _ => false
  saveOk := fun _ => true

/-- Witness for C7 at engMatch with the defect variant, both force modes. -/
theorem c7_empty_diff_skip_witness :
    (runVariant engMatch cfgPlain baseSmall "defect").1 = [ECall.load "defect"] ∧
    List.countP (isSetParamFor "defect") (runVariant engMatch cfgForce baseSmall "defect").1 = 0 ∧
    List.countP (isSolveFor "defect") (runVariant engMatch cfgForce baseSmall "defect").1 = 1 := by
  have h1 := (c7_empty_diff_skip engMatch cfgPlain baseSmall "defect" [("d0", "10"), ("n", "0")]
    rfl (by decide) (by decide) rfl).1 rfl
  have h2 := (c7_empty_diff_skip engMatch cfgForce baseSmall "defect" [("d0", "10"), ("n", "0")]
    rfl (by decide) (by decide) rfl).2 rfl
  exact ⟨h1.1, h2.1, h2.2⟩
